import Mathlib

/-!
# SQS task of kops (`upup/pkg/fi/cloudup/awstasks/sqs.go`)

A shallow embedding of the SQS reconciliation task: the data model (`SQS`),
the state reader (`Find`), the change validator (`CheckChanges`), the
direct renderer (`RenderAWS`), the tag intersector (`intersectSQSTags`) and
the policy normaliser (`normalizePolicy`).

Conventions of the embedding:
* a Go pointer `*string` is an `Option String` (`nil` is `none`);
* a Go `map[string]string` is an association list whose keys are distinct;
  a map that may be `nil` is an `Option` of such a list;
* a Go `error` made in this file is a value of `Err`, an error returned by a
  collaborator (provider client, `encoding/json`, `strconv`, a resource
  reader) is its message, and a `(value, error)` result is an `Except`;
* a method that assigns to fields of its receiver or of an argument returns
  the updated record next to its result.
-/

namespace awstasks

/-! ## Errors -/

/-- Go `error` values that occur in `sqs.go`. -/
inductive Err where
  /-- `field.Required(field.NewPath(path), "")`. -/
  | Required (path : String)
  /-- `fi.CannotChangeField(key)`: the immutable-field error. -/
  | CannotChangeField (key : String)
  /-- `fmt.Errorf(format, args..., err)`: the format string as written in the
  source, its `%q` arguments and the message of the wrapped `%v` error, if
  any. -/
  | Errorf (format : String) (args : List String) (cause : Option String)
  /-- An error returned by a slice transform of package `jsonutils`, by its
  message. -/
  | external (msg : String)
deriving DecidableEq, Repr

deriving instance DecidableEq for Except

/-! ## Go maps -/

/-- A Go `map[string]string`, as an association list. -/
abbrev StringMap := List (String × String)

/-- The keys of a map. -/
def StringMap.keys (m : StringMap) : List String := m.map Prod.fst

/-- The expression `_, found := m[k]` on a map that may be `nil`: a lookup in a
`nil` map finds nothing. -/
def mapFound (m : Option StringMap) (k : String) : Bool :=
  match m with
  | none => false
  | some m => (m.lookup k).isSome

/-- The expression `m[k]` on a `map[string]string`: the zero value `""` when
the key is missing. -/
def mapIndex (m : StringMap) (k : String) : String :=
  (m.lookup k).getD ""

/-- The assignment `m[k] = v`: replaces the value of an existing key, adds the
key otherwise. -/
def mapSet : StringMap → String → String → StringMap
  | [], k, v => [(k, v)]
  | (k', v') :: rest, k, v =>
    if k' = k then (k, v) :: rest else (k', v') :: mapSet rest k v

/-! ## Resources -/

/-- Modelled from the spec: the interface `fi.Resource` (package `fi` is not
among the translated sources), "a lazily-readable byte-producing resource" that
"can be read fully as a string and that supports being constructed from a
string". A resource is given by what reading it fully yields. -/
inductive Resource where
  /-- The value `fi.NewStringResource(s)`. -/
  | StringResource (s : String)
  /-- Any other implementation, by the outcome of reading it. -/
  | reader (outcome : Except String String)
deriving DecidableEq

/-- Modelled from the spec: `fi.NewStringResource`, a resource "constructed
from a string". -/
def NewStringResource (s : String) : Resource := Resource.StringResource s

/-- Modelled from the spec: `fi.ResourceAsString`, the resource "read fully as
a string". Reading can fail (the callers in `sqs.go` handle the error); a
string resource reads back as its string. The argument is a resource that is
not `nil`: the `nil` resource has no reading. -/
def ResourceAsString : Resource → Except String String
  | .StringResource s => .ok s
  | .reader outcome => outcome

/-! ## The task -/

/-- The struct `SQS` (sqs.go, lines 40-50). `fi.Lifecycle` is a string type. -/
structure SQS where
  Name : Option String
  Lifecycle : String
  ARN : Option String
  URL : Option String
  MessageRetentionPeriod : Int
  Policy : Option Resource
  Tags : Option StringMap
deriving DecidableEq

/-- The method `CompareWithID` (sqs.go, lines 54-56). -/
def SQS.CompareWithID (q : SQS) : Option String := q.ARN

/-- The function `intersectSQSTags` (sqs.go, lines 272-287). The loop over
`tags` is a left fold over the entries of the map. -/
def intersectSQSTags (tags desired : Option StringMap) : Option StringMap :=
  match tags with
  | none => none
  | some tags =>
    let actual : StringMap :=
      tags.foldl (fun actual kv => if mapFound desired kv.1 then mapSet actual kv.1 kv.2 else actual) []
    if actual.length = 0 ∧ desired = none then none else some actual

/-- The reference of the tag intersector, in the words of the specification:
absent if the provider mapping is absent; otherwise the mapping whose keys are
exactly `keys(T) ∩ keys(D)`, each with the value of `T`, except that it is
absent when that intersection is empty and `D` is absent. -/
def intersectSQSTagsReference (T D : Option StringMap) : Option StringMap :=
  match T with
  | none => none
  | some t =>
    let keysD : List String := match D with
      | none => []
      | some d => d.keys
    let both : StringMap := t.filter (fun kv => decide (kv.1 ∈ keysD))
    if both = [] ∧ D = none then none else some both

/-- The method `CheckChanges` (sqs.go, lines 195-207); `none` is the `nil`
error. The receiver is not used. -/
def CheckChanges (a : Option SQS) (e changes : SQS) : Option Err :=
  match a with
  | none => if e.Name = none then some (Err.Required "Name") else none
  | some _ => if changes.URL ≠ none then some (Err.CannotChangeField "URL") else none

/-! ## Policy documents -/

/-- A value produced by `json.Unmarshal` into `interface{}`: `nil`, `bool`,
`float64`, `string`, `[]any` or `map[string]any`. A number is the rational
value of the `float64` (JSON has neither NaN nor infinities); an object is an
association list whose keys are distinct. -/
inductive JSON where
  | null
  | bool (b : Bool)
  | number (n : Rat)
  | string (s : String)
  | slice (xs : List JSON)
  | object (kvs : List (String × JSON))

/-- A Go `map[string]any`. -/
abbrev JSONObject := List (String × JSON)

mutual
/-- The function `reflect.DeepEqual` on JSON values: scalars by value, slices
element by element, maps by size and by the value under each key. -/
def DeepEqual : JSON → JSON → Bool
  | .null, .null => true
  | .bool a, .bool b => a == b
  | .number a, .number b => a == b
  | .string a, .string b => a == b
  | .slice xs, .slice ys => DeepEqualSlice xs ys
  | .object a, .object b => a.length == b.length && DeepEqualMap a b
  | _, _ => false
/-- Slices are deeply equal when they have the same length and deeply equal
elements. -/
def DeepEqualSlice : List JSON → List JSON → Bool
  | [], [] => true
  | x :: xs, y :: ys => DeepEqual x y && DeepEqualSlice xs ys
  | _, _ => false
/-- Every entry of the first map has a deeply equal value under the same key
of the second. -/
def DeepEqualMap : List (String × JSON) → List (String × JSON) → Bool
  | [], _ => true
  | (k, v) :: rest, b =>
    (match b.lookup k with
      | some w => DeepEqual v w
      | none => false) && DeepEqualMap rest b
end

/-- The order of Go strings: lexicographic by code point, which for UTF-8 is
the order of the bytes. -/
def stringLE (a b : String) : Prop := a.data ≤ b.data

instance stringLE.decidable : DecidableRel stringLE :=
  fun a b => inferInstanceAs (Decidable (a.data ≤ b.data))

instance stringLE.isTotal : IsTotal String stringLE :=
  ⟨fun a b => le_total a.data b.data⟩

instance stringLE.isTrans : IsTrans String stringLE :=
  ⟨fun a _ _ hab hbc => le_trans (a := a.data) hab hbc⟩

instance stringLE.isAntisymm : IsAntisymm String stringLE :=
  ⟨fun a _ hab hba => String.ext (le_antisymm (a := a.data) hab hba)⟩

/-- Modelled from the spec: `jsonutils.SortSlice` (package `jsonutils` is not
among the translated sources), which puts "the list of service principals"
"into a canonical order". The slice may hold any values; they are put in the
ascending order of their JSON encodings, and sorting does not fail. The
encoder `json.Marshal` of the Go library is given by its result, `marshal`. -/
def SortSlice (marshal : JSON → String) (value : List JSON) : Except Err (List JSON) :=
  .ok (value.insertionSort (fun a b => stringLE (marshal a) (marshal b)))

/-- A slice transform, as registered with `AddSliceTransform`: it receives the
path of a slice and the slice. -/
abbrev SliceTransform := String → List JSON → Except Err (List JSON)

mutual
/-- Modelled from the spec: the traversal of `jsonutils.Transformer` (package
`jsonutils` is not among the translated sources): a "generic JSON traversal
without static schema", "a pure function from (path, node) to
(possibly-replaced node), applied depth-first", with the path matched by "an
explicit string comparison". The path of the value under key `k` of an object
at `path` is `path.k`, the path of a slice and of its elements is `path[]`
(the form of the path the source compares with); the elements are visited
first, then the slice transform is applied to the slice. -/
def Transformer.visit (fn : SliceTransform) (path : String) : JSON → Except Err JSON
  | .object kvs =>
    match Transformer.visitMap fn path kvs with
    | .error err => .error err
    | .ok kvs2 => .ok (.object kvs2)
  | .slice xs =>
    match Transformer.visitSlice fn (path ++ "[]") xs with
    | .error err => .error err
    | .ok ys =>
      match fn (path ++ "[]") ys with
      | .error err => .error err
      | .ok zs => .ok (.slice zs)
  | v => .ok v
/-- Modelled from the spec: the traversal of the entries of an object at
`path`. -/
def Transformer.visitMap (fn : SliceTransform) (path : String) :
    List (String × JSON) → Except Err (List (String × JSON))
  | [] => .ok []
  | (k, v) :: rest =>
    match Transformer.visit fn (path ++ "." ++ k) v with
    | .error err => .error err
    | .ok v2 =>
      match Transformer.visitMap fn path rest with
      | .error err => .error err
      | .ok rest2 => .ok ((k, v2) :: rest2)
/-- Modelled from the spec: the traversal of the elements of a slice whose
path is `path`. -/
def Transformer.visitSlice (fn : SliceTransform) (path : String) :
    List JSON → Except Err (List JSON)
  | [] => .ok []
  | v :: rest =>
    match Transformer.visit fn path v with
    | .error err => .error err
    | .ok v2 =>
      match Transformer.visitSlice fn path rest with
      | .error err => .error err
      | .ok rest2 => .ok (v2 :: rest2)
end

/-- Modelled from the spec: `Transformer.Transform`, the traversal started at
the root object with the empty path. The document is changed in place: the
result is the document after the call. -/
def Transformer.Transform (fn : SliceTransform) (v : JSONObject) : Except Err JSONObject :=
  Transformer.visitMap fn "" v

/-- The path of the service principals, as written in `normalizePolicy`. -/
def servicePath : String := ".Statement[].Principal.Service[]"

/-- The slice transform that `normalizePolicy` registers (sqs.go, lines
179-184). -/
def normalizePolicy.xform (marshal : JSON → String) : SliceTransform :=
  fun path value =>
    if path ≠ servicePath then .ok value
    else SortSlice marshal value

/-- The function `normalizePolicy` (sqs.go, lines 177-189). The policy is
changed in place: the result is the policy after the call. The encoder
`json.Marshal` that the sort compares by is given by its result, `marshal`. -/
def normalizePolicy (marshal : JSON → String) (policy : JSONObject) : Except Err JSONObject :=
  match Transformer.Transform (normalizePolicy.xform marshal) policy with
  | .error err => .error err
  | .ok policy2 => .ok policy2

mutual
/-- Two values at `path` differ only in the order of the service principals:
they are the same value, except that where a slice sits at the path of the
service principals the second holds the elements of the first in another
order. The values are Go values: the keys of an object are distinct, and two
principals with the same JSON encoding are deeply equal. -/
inductive Reordered (marshal : JSON → String) : String → JSON → JSON → Prop
  | null (path : String) : Reordered marshal path .null .null
  | bool (path : String) (b : Bool) : Reordered marshal path (.bool b) (.bool b)
  | number (path : String) (n : Rat) : Reordered marshal path (.number n) (.number n)
  | string (path : String) (v : String) : Reordered marshal path (.string v) (.string v)
  | services (path : String) (xs ys : List JSON) :
      path ++ "[]" = servicePath → xs.Perm ys →
      (∀ a ∈ xs, ∀ b ∈ xs, marshal a = marshal b → DeepEqual a b = true) →
      Reordered marshal path (.slice xs) (.slice ys)
  | slice (path : String) (xs ys : List JSON) :
      path ++ "[]" ≠ servicePath → ReorderedSlice marshal (path ++ "[]") xs ys →
      Reordered marshal path (.slice xs) (.slice ys)
  | object (path : String) (kvs kvs2 : List (String × JSON)) :
      (kvs.map Prod.fst).Nodup → ReorderedMap marshal path kvs kvs2 →
      Reordered marshal path (.object kvs) (.object kvs2)
/-- The elements of two slices with path `path` differ, one by one, only in
the order of the service principals. -/
inductive ReorderedSlice (marshal : JSON → String) : String → List JSON → List JSON → Prop
  | nil (path : String) : ReorderedSlice marshal path [] []
  | cons (path : String) (x y : JSON) (xs ys : List JSON) :
      Reordered marshal path x y → ReorderedSlice marshal path xs ys →
      ReorderedSlice marshal path (x :: xs) (y :: ys)
/-- Two objects at `path` have the same keys, and the values under each key
differ only in the order of the service principals. -/
inductive ReorderedMap (marshal : JSON → String) :
    String → List (String × JSON) → List (String × JSON) → Prop
  | nil (path : String) : ReorderedMap marshal path [] []
  | cons (path k : String) (v w : JSON) (kvs kvs2 : List (String × JSON)) :
      Reordered marshal (path ++ "." ++ k) v w → ReorderedMap marshal path kvs kvs2 →
      ReorderedMap marshal path ((k, v) :: kvs) ((k, w) :: kvs2)
end

mutual
/-- Whether a slice sits at the path of the service principals somewhere in
the value at `path`. -/
def reachesServices (path : String) : JSON → Bool
  | .object kvs => reachesServicesMap path kvs
  | .slice xs => decide (path ++ "[]" = servicePath) || reachesServicesSlice (path ++ "[]") xs
  | _ => false
/-- Whether a slice sits at the path of the service principals under a key of
the object at `path`. -/
def reachesServicesMap (path : String) : List (String × JSON) → Bool
  | [] => false
  | (k, v) :: rest => reachesServices (path ++ "." ++ k) v || reachesServicesMap path rest
/-- Whether a slice sits at the path of the service principals in an element
of the slice with path `path`. -/
def reachesServicesSlice (path : String) : List JSON → Bool
  | [] => false
  | v :: rest => reachesServices path v || reachesServicesSlice path rest
end

/-! ## The provider and the Go library -/

/-- The input `sqs.ListQueuesInput`, with the fields the task sets. -/
structure ListQueuesInput where
  MaxResults : Option Int
  QueueNamePrefix : Option String
deriving DecidableEq

/-- The output `sqs.ListQueuesOutput`. -/
structure ListQueuesOutput where
  QueueUrls : List String
deriving DecidableEq

/-- The input `sqs.GetQueueAttributesInput`. -/
structure GetQueueAttributesInput where
  AttributeNames : List String
  QueueUrl : Option String
deriving DecidableEq

/-- The output `sqs.GetQueueAttributesOutput`. -/
structure GetQueueAttributesOutput where
  Attributes : StringMap
deriving DecidableEq

/-- The input `sqs.ListQueueTagsInput`. -/
structure ListQueueTagsInput where
  QueueUrl : Option String
deriving DecidableEq

/-- The output `sqs.ListQueueTagsOutput`; the map `Tags` may be `nil`. -/
structure ListQueueTagsOutput where
  Tags : Option StringMap
deriving DecidableEq

/-- The input `sqs.CreateQueueInput`. -/
structure CreateQueueInput where
  Attributes : StringMap
  QueueName : Option String
  Tags : Option StringMap
deriving DecidableEq

/-- The output `sqs.CreateQueueOutput`. -/
structure CreateQueueOutput where
  QueueUrl : Option String
deriving DecidableEq

/-- The SQS client of the cloud, `cloud.SQS()`, by the answer it gives to each
request; an error is given by its message. The response of `ListQueues` may be
`nil`. -/
structure SQSClient where
  ListQueues : ListQueuesInput → Except String (Option ListQueuesOutput)
  GetQueueAttributes : GetQueueAttributesInput → Except String GetQueueAttributesOutput
  ListQueueTags : ListQueueTagsInput → Except String ListQueueTagsOutput
  CreateQueue : CreateQueueInput → Except String CreateQueueOutput

/-- What `Find` is run in: the SQS client of the cloud, and the functions of
the Go library that are called, `json.Unmarshal` into a
`map[string]interface{}`, `json.Marshal` and `strconv.Atoi`, each by its
result. -/
structure CloudupContext where
  SQS : SQSClient
  Unmarshal : String → Except String JSONObject
  Marshal : JSON → String
  Atoi : String → Except String Int

/-- The function `strconv.Itoa`: the decimal form of an integer, with a
leading `-` when it is negative. -/
def Itoa (n : Int) : String := toString n

/-- Modelled from the spec: the helper `s` of package `awstasks` (its
definition is not among the translated sources), which turns the
provider-reported string into the pointer stored in the task. -/
def s (v : String) : Option String := some v

/-- A request sent to the provider. -/
inductive Call where
  | ListQueues (input : ListQueuesInput)
  | GetQueueAttributes (input : GetQueueAttributesInput)
  | ListQueueTags (input : ListQueueTagsInput)
  | CreateQueue (input : CreateQueueInput)
deriving DecidableEq

/-! ## Find -/

/-- The outcome of `Find`: the returned `(*SQS, error)` and the receiver after
the call (`Find` assigns to `q.Policy` and `q.ARN`). -/
structure FindResult where
  result : Except Err (Option SQS)
  q : SQS
deriving DecidableEq

/-- The policy step of `Find` (sqs.go, lines 102-132), run when `q.Policy` is
not `nil`, with `policy` the resource it holds: the outcome is the new value
of `actualPolicy` and the new value of `q.Policy`. -/
def Find.policy (c : CloudupContext) (q : SQS) (policy : Resource) (actualPolicy : String) :
    Except Err (String × Option Resource) :=
  match ResourceAsString policy with
  | .error err =>
    .error (.Errorf "error reading expected Policy for SQS %q: %v" [q.Name.getD ""] (some err))
  | .ok expectedPolicy =>
    match c.Unmarshal expectedPolicy with
    | .error err =>
      .error (.Errorf "error parsing expected Policy for SQS %q: %v" [q.Name.getD ""] (some err))
    | .ok expectedJson =>
      match c.Unmarshal actualPolicy with
      | .error err =>
        .error (.Errorf "error parsing actual Policy for SQS %q: %v" [q.Name.getD ""] (some err))
      | .ok actualJson =>
        match normalizePolicy c.Marshal expectedJson with
        | .error err => .error err
        | .ok expectedJson =>
          match normalizePolicy c.Marshal actualJson with
          | .error err => .error err
          | .ok actualJson =>
            if DeepEqual (.object actualJson) (.object expectedJson) then
              .ok (expectedPolicy, some (NewStringResource expectedPolicy))
            else
              .ok (actualPolicy, q.Policy)

/-- The method `Find` (sqs.go, lines 58-148). -/
def Find (q : SQS) (c : CloudupContext) : FindResult :=
  if q.Name = none then ⟨.ok none, q⟩ else
  match c.SQS.ListQueues { MaxResults := some 2, QueueNamePrefix := q.Name } with
  | .error err => ⟨.error (.Errorf "error listing SQS queues: %v" [] (some err)), q⟩
  | .ok none => ⟨.ok none, q⟩
  | .ok (some response) =>
    match response.QueueUrls with
    | [] => ⟨.ok none, q⟩
    | _ :: _ :: _ => ⟨.error (.Errorf "found multiple SQS queues matching queue name" [] none), q⟩
    | [url] =>
      match c.SQS.GetQueueAttributes
          { AttributeNames := ["MessageRetentionPeriod", "Policy", "QueueArn"], QueueUrl := some url } with
      | .error err => ⟨.error (.Errorf "error getting SQS queue attributes: %v" [] (some err)), q⟩
      | .ok attributes =>
        let actualPolicy := mapIndex attributes.Attributes "Policy"
        let actualARN := mapIndex attributes.Attributes "QueueArn"
        match c.Atoi (mapIndex attributes.Attributes "MessageRetentionPeriod") with
        | .error err =>
          ⟨.error (.Errorf "error coverting MessageRetentionPeriod to int: %v" [] (some err)), q⟩
        | .ok period =>
          match c.SQS.ListQueueTags { QueueUrl := some url } with
          | .error err => ⟨.error (.Errorf "error listing SQS queue tags: %v" [] (some err)), q⟩
          | .ok tags =>
            match (match q.Policy with
                | some policy => Find.policy c q policy actualPolicy
                | none => .ok (actualPolicy, q.Policy)) with
            | .error err => ⟨.error err, q⟩
            | .ok (actualPolicy, qPolicy) =>
              let actual : SQS :=
                { ARN := s actualARN
                  Name := q.Name
                  URL := some url
                  Lifecycle := q.Lifecycle
                  Policy := some (NewStringResource actualPolicy)
                  MessageRetentionPeriod := period
                  Tags := intersectSQSTags tags.Tags q.Tags }
              ⟨.ok (some actual), { q with Policy := qPolicy, ARN := actual.ARN }⟩

/-! ## RenderAWS -/

/-- The outcome of `RenderAWS`: the returned error (`none` is `nil`), the
desired task `e` after the call (`RenderAWS` assigns to `e.ARN`), and the
requests sent to the provider, in order. -/
structure RenderResult where
  err : Option Err
  e : SQS
  calls : List Call
deriving DecidableEq

/-- The method `RenderAWS` (sqs.go, lines 209-242), with receiver `q` and the
SQS client of the target's cloud. Line 211 reads `e.Policy` without testing it
for `nil`; the `nil` resource has no reading, and the call has no outcome
then (`none`). -/
def RenderAWS (q : SQS) (t : SQSClient) (a : Option SQS) (e _changes : SQS) :
    Option RenderResult :=
  match e.Policy with
  | none => none
  | some resource =>
    match ResourceAsString resource with
    | .error err =>
      some ⟨some (.Errorf "error rendering RolePolicyDocument: %v" [] (some err)), e, []⟩
    | .ok policy =>
      match a with
      | none =>
        let request : CreateQueueInput :=
          { Attributes :=
              [("MessageRetentionPeriod", Itoa q.MessageRetentionPeriod), ("Policy", policy)]
            QueueName := q.Name
            Tags := q.Tags }
        match t.CreateQueue request with
        | .error err =>
          some ⟨some (.Errorf "error creating SQS queue: %v" [] (some err)), e,
            [.CreateQueue request]⟩
        | .ok response =>
          let input : GetQueueAttributesInput :=
            { AttributeNames := ["QueueArn"], QueueUrl := response.QueueUrl }
          match t.GetQueueAttributes input with
          | .error err =>
            some ⟨some (.Errorf "error getting SQS queue attributes: %v" [] (some err)), e,
              [.CreateQueue request, .GetQueueAttributes input]⟩
          | .ok attributes =>
            some ⟨none, { e with ARN := some (mapIndex attributes.Attributes "QueueArn") },
              [.CreateQueue request, .GetQueueAttributes input]⟩
      | some _ => some ⟨none, e, []⟩

/-- The queue URLs of a listing response; a `nil` response lists none. -/
def queueUrls (response : Option ListQueuesOutput) : List String :=
  match response with
  | none => []
  | some response => response.QueueUrls

/-- The request `Find` lists the queues with. -/
def Find.listInput (q : SQS) : ListQueuesInput :=
  { MaxResults := some 2, QueueNamePrefix := q.Name }

/-- The request `Find` reads the attributes of the queue at `url` with. -/
def Find.attributesInput (url : String) : GetQueueAttributesInput :=
  { AttributeNames := ["MessageRetentionPeriod", "Policy", "QueueArn"], QueueUrl := some url }

/-! ## Scenarios -/

/-- A policy document with one statement, whose service principals are
`services`. -/
def policyDocument (services : JSON) : JSONObject :=
  [("Statement", .slice [.object [("Principal", .object [("Service", services)])]])]

/-- The policy the caller wrote in scenario B. -/
def desiredPolicyText : String :=
  "\x7b\"Statement\":[\x7b\"Principal\":\x7b\"Service\":[\"b\",\"a\"]\x7d\x7d]\x7d"

/-- The policy the provider reports in scenario B. -/
def actualPolicyText : String :=
  "\x7b\"Statement\":[\x7b\"Principal\":\x7b\"Service\":[\"a\",\"b\"]\x7d\x7d]\x7d"

/-- A provider that creates any queue at one URL and reports one ARN. -/
def exampleClient : SQSClient where
  ListQueues := fun _ => .ok none
  GetQueueAttributes := fun _ => .ok { Attributes := [("QueueArn", "arn:aws:sqs:us-east-1:1:queue-a")] }
  ListQueueTags := fun _ => .ok { Tags := none }
  CreateQueue := fun _ => .ok { QueueUrl := some "https://sqs/1/queue-a" }

/-- The desired task of scenario A: a queue named `queue-a`. -/
def exampleDesired : SQS where
  Name := some "queue-a"
  Lifecycle := "Sync"
  ARN := none
  URL := none
  MessageRetentionPeriod := 345600
  Policy := some (NewStringResource "policy-a")
  Tags := some [("k", "v")]

/-- A desired task whose policy body cannot be read. -/
def unreadableDesired : SQS :=
  { exampleDesired with Policy := some (Resource.reader (.error "open policy: no such file")) }

/-- The JSON encoding in the scenarios, whose principals are strings without
characters to escape: a string is encoded as itself between quotes. Other
values do not occur in a sorted slice and are given the encoding of
`null`. -/
def scenarioMarshal : JSON → String
  | .string v => "\"" ++ v ++ "\""
  | _ => "null"

/-- A desired task that differs from that of scenario A in its retention
period, policy and tags. -/
def changedDesired : SQS :=
  { exampleDesired with
    MessageRetentionPeriod := 60
    Policy := some (NewStringResource "policy-b")
    Tags := some [("k", "other")] }

/-- The desired task of scenario B. -/
def scenarioDesired : SQS where
  Name := some "queue-b"
  Lifecycle := "Sync"
  ARN := none
  URL := none
  MessageRetentionPeriod := 345600
  Policy := some (Resource.reader (.ok desiredPolicyText))
  Tags := some [("k", "v")]

/-- The provider of scenario B: one queue matches, with the reordered policy,
a retention period of `345600` and the tags `k` and `aws:injected`. The two
policy texts parse to their documents, `345600` to its number. -/
def scenarioContext : CloudupContext where
  SQS :=
    { ListQueues := fun _ => .ok (some { QueueUrls := ["https://sqs/1/queue-b"] })
      GetQueueAttributes := fun _ =>
        .ok { Attributes :=
                [("MessageRetentionPeriod", "345600"), ("Policy", actualPolicyText),
                  ("QueueArn", "arn:aws:sqs:us-east-1:1:queue-b")] }
      ListQueueTags := fun _ => .ok { Tags := some [("k", "w"), ("aws:injected", "x")] }
      CreateQueue := fun _ => .error "not used" }
  Unmarshal := fun text =>
    if text = desiredPolicyText then .ok (policyDocument (.slice [.string "b", .string "a"]))
    else if text = actualPolicyText then .ok (policyDocument (.slice [.string "a", .string "b"]))
    else .error "invalid character"
  Marshal := scenarioMarshal
  Atoi := fun text => if text = "345600" then .ok 345600 else .error "invalid syntax"

/-- The provider of scenario B, except that listing the tags of the queue
fails. -/
def failingTagsContext : CloudupContext :=
  { scenarioContext with
    SQS := { scenarioContext.SQS with ListQueueTags := fun _ => .error "AccessDenied" } }

/-! ## Tag intersector -/

theorem mapSet_of_not_mem (m : StringMap) (k v : String) (h : k ∉ m.keys) :
    mapSet m k v = m ++ [(k, v)] := by
  induction m with
  | nil => rfl
  | cons kv rest ih =>
    obtain ⟨k', v'⟩ := kv
    simp only [StringMap.keys, List.map_cons, List.mem_cons, not_or] at h
    have hne : ¬ k' = k := fun hk => h.1 hk.symm
    simp only [mapSet, hne, if_false, List.cons_append]
    rw [ih h.2]

theorem mapFound_eq_mem (D : Option StringMap) (k : String) :
    mapFound D k = decide (k ∈ (match D with
      | none => []
      | some d => d.keys)) := by
  cases D with
  | none => simp [mapFound]
  | some d =>
    simp only [mapFound]
    induction d with
    | nil => simp [StringMap.keys]
    | cons kv rest ih =>
      obtain ⟨k', v'⟩ := kv
      by_cases hk : k = k'
      · subst hk
        simp [List.lookup, StringMap.keys]
      · have hb : (k == k') = false := by simpa using hk
        simp only [List.lookup, hb, StringMap.keys, List.map_cons, List.mem_cons, hk, false_or]
        simpa [StringMap.keys] using ih

theorem intersect_foldl (D : Option StringMap) (t acc : StringMap)
    (hnd : t.keys.Nodup) (hdisj : ∀ k ∈ t.keys, k ∉ acc.keys) :
    t.foldl (fun actual kv => if mapFound D kv.1 then mapSet actual kv.1 kv.2 else actual) acc
      = acc ++ t.filter (fun kv => mapFound D kv.1) := by
  induction t generalizing acc with
  | nil => simp
  | cons kv rest ih =>
    obtain ⟨k, v⟩ := kv
    simp only [StringMap.keys, List.map_cons, List.nodup_cons] at hnd
    have hk : k ∉ acc.keys := hdisj k (by simp [StringMap.keys])
    simp only [List.foldl_cons, List.filter_cons]
    by_cases hf : mapFound D k = true
    · simp only [hf, if_true]
      rw [mapSet_of_not_mem acc k v hk, ih _ hnd.2]
      · simp
      · intro k2 hk2
        have h1 : k2 ∉ acc.keys := hdisj k2 (by simp [StringMap.keys] at hk2 ⊢; exact Or.inr hk2)
        have h2 : k2 ≠ k := by
          rintro rfl
          exact hnd.1 (by simpa [StringMap.keys] using hk2)
        simp only [StringMap.keys, List.map_append, List.map_cons, List.map_nil, List.mem_append,
          List.mem_singleton, not_or]
        exact ⟨h1, h2⟩
    · simp only [hf, if_false]
      simp only [Bool.false_eq_true, if_false]
      exact ih acc hnd.2 (fun k2 hk2 => hdisj k2 (by simp [StringMap.keys] at hk2 ⊢; exact Or.inr hk2))

/-- C3: for every provider tag mapping `T` (a map: its keys are distinct) and
every desired mapping `D`, `intersectSQSTags T D` equals the reference of the
specification: absent if `T` is absent, otherwise the entries of `T` whose key
is also a key of `D`, except that it is absent when there is no such entry and
`D` is absent. -/
theorem intersectSQSTags_eq_reference (T D : Option StringMap)
    (hT : ∀ t, T = some t → t.keys.Nodup) :
    intersectSQSTags T D = intersectSQSTagsReference T D := by
  cases T with
  | none => rfl
  | some t =>
    have hfold := intersect_foldl D t [] (hT t rfl) (by simp [StringMap.keys])
    have hfilter : t.filter (fun kv => mapFound D kv.1)
        = t.filter (fun kv => decide (kv.1 ∈ (match D with
            | none => []
            | some d => d.keys))) := by
      congr 1
      funext kv
      exact mapFound_eq_mem D kv.1
    simp only [intersectSQSTags, intersectSQSTagsReference, hfold, List.nil_append, hfilter,
      List.length_eq_zero]

/-- C3, at a concrete input: provider tags `a`, `b` and desired tag `b` leave
the provider value of `b`. -/
theorem intersectSQSTags_eq_reference_witness :
    intersectSQSTags (some [("a", "1"), ("b", "2")]) (some [("b", "x")])
        = intersectSQSTagsReference (some [("a", "1"), ("b", "2")]) (some [("b", "x")])
      ∧ intersectSQSTags (some [("a", "1"), ("b", "2")]) (some [("b", "x")]) = some [("b", "2")]
      ∧ intersectSQSTags (some [("a", "1")]) none = none
      ∧ intersectSQSTags (some [("a", "1")]) (some []) = some [] :=
  ⟨intersectSQSTags_eq_reference _ _ (by intro t ht; cases ht; decide), by decide, by decide,
    by decide⟩

/-! ## Change validator -/

/-- C4: when the actual state is present, `CheckChanges` fails with the
immutable-field error for `URL` if the delta has a `URL` (a non-`nil` pointer,
whatever it points to), and returns no error for every other delta, whatever
the other fields of the delta, of the desired and of the actual state. -/
theorem CheckChanges_actual_present (a e changes : SQS) :
    CheckChanges (some a) e changes
      = if changes.URL = none then none else some (Err.CannotChangeField "URL") := by
  unfold CheckChanges
  by_cases h : changes.URL = none <;> simp [h]

/-- C5: when the actual state is absent, `CheckChanges` fails with the
required-field error on `Name` if the desired state has no `Name` (a `nil`
pointer), and returns no error if it has one. -/
theorem CheckChanges_actual_absent (e changes : SQS) :
    CheckChanges none e changes
      = if e.Name = none then some (Err.Required "Name") else none := by
  unfold CheckChanges
  rfl

/-! ## Direct rendering -/

/-- C7: with the actual state absent and the desired task `e` as receiver, when
the desired policy is set and its body reads as `policy`, the create call
succeeds and the follow-up attribute read succeeds, `RenderAWS` sends exactly
two requests: one create call carrying `MessageRetentionPeriod` as the decimal
string of the desired retention period, `Policy` as the desired policy body,
the desired name and the desired tags, then one read of `QueueArn` at the URL
of the created queue; it returns no error and stores the returned `QueueArn`
as `e.ARN`, leaving the other fields of `e` as they were. -/
theorem RenderAWS_create (e changes : SQS) (t : SQSClient) (resource : Resource)
    (policy : String) (response : CreateQueueOutput) (attributes : GetQueueAttributesOutput)
    (hset : e.Policy = some resource)
    (hpolicy : ResourceAsString resource = .ok policy)
    (hcreate : t.CreateQueue
        { Attributes := [("MessageRetentionPeriod", Itoa e.MessageRetentionPeriod), ("Policy", policy)]
          QueueName := e.Name
          Tags := e.Tags } = .ok response)
    (hread : t.GetQueueAttributes
        { AttributeNames := ["QueueArn"], QueueUrl := response.QueueUrl } = .ok attributes) :
    RenderAWS e t none e changes =
      some
        { err := none
          e := { e with ARN := some (mapIndex attributes.Attributes "QueueArn") }
          calls :=
            [Call.CreateQueue
                { Attributes :=
                    [("MessageRetentionPeriod", Itoa e.MessageRetentionPeriod), ("Policy", policy)]
                  QueueName := e.Name
                  Tags := e.Tags },
              Call.GetQueueAttributes
                { AttributeNames := ["QueueArn"], QueueUrl := response.QueueUrl }] } := by
  simp only [RenderAWS, hset, hpolicy, hcreate, hread]

/-- C7, at scenario A: the create call carries the retention period `345600`
as a string, and the reported ARN is stored. -/
theorem RenderAWS_create_witness :
    RenderAWS exampleDesired exampleClient none exampleDesired exampleDesired =
      some
        { err := none
          e := { exampleDesired with ARN := some "arn:aws:sqs:us-east-1:1:queue-a" }
          calls :=
            [Call.CreateQueue
                { Attributes := [("MessageRetentionPeriod", "345600"), ("Policy", "policy-a")]
                  QueueName := some "queue-a"
                  Tags := some [("k", "v")] },
              Call.GetQueueAttributes
                { AttributeNames := ["QueueArn"], QueueUrl := some "https://sqs/1/queue-a" }] } :=
  RenderAWS_create exampleDesired exampleDesired exampleClient (NewStringResource "policy-a")
    "policy-a" { QueueUrl := some "https://sqs/1/queue-a" }
    { Attributes := [("QueueArn", "arn:aws:sqs:us-east-1:1:queue-a")] } rfl rfl rfl rfl

/-- C8 fails as stated: with the actual state present and a desired policy
whose body cannot be read, `RenderAWS` returns an error. -/
theorem RenderAWS_existing_unreadable_policy :
    RenderAWS unreadableDesired exampleClient (some exampleDesired) unreadableDesired
        unreadableDesired
      = some
          { err := some (Err.Errorf "error rendering RolePolicyDocument: %v" []
              (some "open policy: no such file"))
            e := unreadableDesired
            calls := [] } := by
  rfl

/-- C8, amended: with the actual state present and the desired policy set,
`RenderAWS` sends no request to the provider and leaves every field of the
desired task unchanged, whatever the differences between actual and desired;
it returns no error when the desired policy body can be read, and the error of
that read when it cannot. -/
theorem RenderAWS_existing (q : SQS) (t : SQSClient) (a e changes : SQS) (resource : Resource)
    (hset : e.Policy = some resource) :
    RenderAWS q t (some a) e changes =
      some
        { err := match ResourceAsString resource with
            | .ok _ => none
            | .error err =>
              some (Err.Errorf "error rendering RolePolicyDocument: %v" [] (some err))
          e := e
          calls := [] } := by
  simp only [RenderAWS, hset]
  cases ResourceAsString resource <;> rfl

/-- C8, amended, at an actual state that differs from the desired one in its
retention period, policy and tags: no request, no change, no error. -/
theorem RenderAWS_existing_witness :
    RenderAWS changedDesired exampleClient (some exampleDesired) changedDesired changedDesired
      = some { err := none, e := changedDesired, calls := [] } :=
  RenderAWS_existing changedDesired exampleClient exampleDesired changedDesired changedDesired
    (NewStringResource "policy-b") rfl

/-! ## State reader -/

/-- C6: for a desired task with a `Name` and a successful listing: with no
matching queue `Find` returns no actual state and no error; with two or more it
returns an error and no actual state; with exactly one, when the attribute and
tag reads succeed, the retention period is numeric and the desired policy is
either unset or read, parsed and normalised together with the actual one,
`Find` returns an actual state with the URL of the matched queue, the ARN and
the retention period the provider reports, the `Name` and `Lifecycle` of the
desired task, and the provider tags intersected with the desired tags. -/
theorem Find_by_matches (q : SQS) (c : CloudupContext) (name : String)
    (response : Option ListQueuesOutput)
    (hname : q.Name = some name)
    (hlist : c.SQS.ListQueues (Find.listInput q) = .ok response) :
    (queueUrls response = [] → Find q c = ⟨.ok none, q⟩)
    ∧ (2 ≤ (queueUrls response).length →
        Find q c = ⟨.error (.Errorf "found multiple SQS queues matching queue name" [] none), q⟩)
    ∧ (∀ (url : String) (attributes : GetQueueAttributesOutput) (period : Int)
        (tags : ListQueueTagsOutput),
        queueUrls response = [url] →
        c.SQS.GetQueueAttributes (Find.attributesInput url) = .ok attributes →
        c.Atoi (mapIndex attributes.Attributes "MessageRetentionPeriod") = .ok period →
        c.SQS.ListQueueTags { QueueUrl := some url } = .ok tags →
        (q.Policy = none ∨
          ∃ policy expectedPolicy expectedJson actualJson expectedNormal actualNormal,
            q.Policy = some policy
            ∧ ResourceAsString policy = .ok expectedPolicy
            ∧ c.Unmarshal expectedPolicy = .ok expectedJson
            ∧ c.Unmarshal (mapIndex attributes.Attributes "Policy") = .ok actualJson
            ∧ normalizePolicy c.Marshal expectedJson = .ok expectedNormal
            ∧ normalizePolicy c.Marshal actualJson = .ok actualNormal) →
        ∃ actual, (Find q c).result = .ok (some actual)
          ∧ actual.URL = some url
          ∧ actual.ARN = some (mapIndex attributes.Attributes "QueueArn")
          ∧ actual.MessageRetentionPeriod = period
          ∧ actual.Name = q.Name
          ∧ actual.Lifecycle = q.Lifecycle
          ∧ actual.Tags = intersectSQSTags tags.Tags q.Tags) := by
  have hne : ¬ q.Name = none := by simp [hname]
  simp only [Find.listInput] at hlist
  refine ⟨?_, ?_, ?_⟩
  · intro h0
    cases response with
    | none => simp only [Find, hne, if_false, hlist]
    | some r =>
      simp only [queueUrls] at h0
      simp only [Find, hne, if_false, hlist, h0]
  · intro h2
    cases response with
    | none => simp [queueUrls] at h2
    | some r =>
      simp only [queueUrls] at h2
      match hr : r.QueueUrls, h2 with
      | [], h2 => simp at h2
      | [_], h2 => simp at h2
      | _ :: _ :: _, _ => simp only [Find, hne, if_false, hlist, hr]
  · intro url attributes period tags h1 hattr hatoi htags hpolicy
    cases response with
    | none => simp [queueUrls] at h1
    | some r =>
      simp only [queueUrls] at h1
      simp only [Find.attributesInput] at hattr
      rcases hpolicy with hnone | ⟨policy, ep, ej, aj, en, an, hset, hread, hej, haj, hen, han⟩
      · simp only [Find, hne, if_false, hlist, h1, hattr, hatoi, htags, hnone]
        exact ⟨_, rfl, rfl, rfl, rfl, rfl, rfl, rfl⟩
      · by_cases heq : DeepEqual (.object an) (.object en) = true
        · simp only [Find, hne, if_false, hlist, h1, hattr, hatoi, htags, hset, if_true,
            Find.policy, hread, hej, haj, hen, han, heq]
          exact ⟨_, rfl, rfl, rfl, rfl, rfl, rfl, rfl⟩
        · simp only [Find, hne, if_false, hlist, h1, hattr, hatoi, htags, hset,
            Find.policy, hread, hej, haj, hen, han, heq]
          exact ⟨_, rfl, rfl, rfl, rfl, rfl, rfl, rfl⟩

/-- C6, at scenario B: one queue matches and `Find` returns its state. -/
theorem Find_by_matches_witness :
    ∃ actual, (Find scenarioDesired scenarioContext).result = .ok (some actual)
      ∧ actual.URL = some "https://sqs/1/queue-b"
      ∧ actual.ARN = some "arn:aws:sqs:us-east-1:1:queue-b"
      ∧ actual.MessageRetentionPeriod = 345600
      ∧ actual.Name = some "queue-b"
      ∧ actual.Lifecycle = "Sync"
      ∧ actual.Tags = some [("k", "w")] :=
  (Find_by_matches scenarioDesired scenarioContext "queue-b"
      (some { QueueUrls := ["https://sqs/1/queue-b"] }) rfl rfl).2.2
    "https://sqs/1/queue-b"
    { Attributes :=
        [("MessageRetentionPeriod", "345600"), ("Policy", actualPolicyText),
          ("QueueArn", "arn:aws:sqs:us-east-1:1:queue-b")] }
    345600 { Tags := some [("k", "w"), ("aws:injected", "x")] } rfl rfl rfl rfl
    (Or.inr ⟨Resource.reader (.ok desiredPolicyText), desiredPolicyText,
      policyDocument (.slice [.string "b", .string "a"]),
      policyDocument (.slice [.string "a", .string "b"]),
      policyDocument (.slice [.string "a", .string "b"]),
      policyDocument (.slice [.string "a", .string "b"]), rfl, rfl, rfl, rfl, rfl, rfl⟩)

/-- C1: when the desired policy is set and reads as `expectedPolicy`, exactly
one queue matches, the attribute and tag reads succeed (with a numeric
retention period), both policy bodies parse as JSON, `normalizePolicy` succeeds
on both and the normalised documents are deeply equal, `Find` returns an actual
state whose policy reads back as `expectedPolicy`, the string the caller wrote,
not the text of the provider. -/
theorem Find_policy_reads_as_desired (q : SQS) (c : CloudupContext) (name url : String)
    (policy : Resource) (expectedPolicy : String)
    (attributes : GetQueueAttributesOutput) (period : Int) (tags : ListQueueTagsOutput)
    (expectedJson actualJson expectedNormal actualNormal : JSONObject)
    (hname : q.Name = some name)
    (hset : q.Policy = some policy)
    (hread : ResourceAsString policy = .ok expectedPolicy)
    (hlist : c.SQS.ListQueues (Find.listInput q) = .ok (some { QueueUrls := [url] }))
    (hattr : c.SQS.GetQueueAttributes (Find.attributesInput url) = .ok attributes)
    (hatoi : c.Atoi (mapIndex attributes.Attributes "MessageRetentionPeriod") = .ok period)
    (htags : c.SQS.ListQueueTags { QueueUrl := some url } = .ok tags)
    (hexpected : c.Unmarshal expectedPolicy = .ok expectedJson)
    (hactual : c.Unmarshal (mapIndex attributes.Attributes "Policy") = .ok actualJson)
    (hen : normalizePolicy c.Marshal expectedJson = .ok expectedNormal)
    (han : normalizePolicy c.Marshal actualJson = .ok actualNormal)
    (hequal : DeepEqual (.object actualNormal) (.object expectedNormal) = true) :
    ∃ actual, (Find q c).result = .ok (some actual)
      ∧ actual.Policy.map ResourceAsString = some (.ok expectedPolicy) := by
  have hne : ¬ q.Name = none := by simp [hname]
  simp only [Find.listInput] at hlist
  simp only [Find.attributesInput] at hattr
  simp only [Find, hne, if_false, hlist, hattr, hatoi, htags, hset,
    if_true, Find.policy, hread, hexpected, hactual, hen, han, hequal]
  exact ⟨_, rfl, rfl⟩

/-- C1, at scenario B: the desired services `b`, `a` against the actual `a`,
`b`; the returned policy is the text the caller wrote. -/
theorem Find_policy_reads_as_desired_witness :
    ∃ actual, (Find scenarioDesired scenarioContext).result = .ok (some actual)
      ∧ actual.Policy.map ResourceAsString = some (.ok desiredPolicyText) :=
  Find_policy_reads_as_desired scenarioDesired scenarioContext "queue-b" "https://sqs/1/queue-b"
    (Resource.reader (.ok desiredPolicyText)) desiredPolicyText
    { Attributes :=
        [("MessageRetentionPeriod", "345600"), ("Policy", actualPolicyText),
          ("QueueArn", "arn:aws:sqs:us-east-1:1:queue-b")] }
    345600 { Tags := some [("k", "w"), ("aws:injected", "x")] }
    (policyDocument (.slice [.string "b", .string "a"]))
    (policyDocument (.slice [.string "a", .string "b"]))
    (policyDocument (.slice [.string "a", .string "b"]))
    (policyDocument (.slice [.string "a", .string "b"]))
    rfl rfl rfl rfl rfl rfl rfl rfl rfl rfl rfl rfl

/-- C9 fails as stated: one queue matches and its attributes, with the queue
ARN, are read, but listing the tags fails; `Find` returns an error and the
`ARN` of the desired task is still unset. -/
theorem Find_ARN_not_set_on_later_failure :
    failingTagsContext.SQS.ListQueues (Find.listInput scenarioDesired)
        = .ok (some { QueueUrls := ["https://sqs/1/queue-b"] })
      ∧ (failingTagsContext.SQS.GetQueueAttributes
            (Find.attributesInput "https://sqs/1/queue-b")).map
          (fun attributes => mapIndex attributes.Attributes "QueueArn")
        = .ok "arn:aws:sqs:us-east-1:1:queue-b"
      ∧ (Find scenarioDesired failingTagsContext).result
        = .error (.Errorf "error listing SQS queue tags: %v" [] (some "AccessDenied"))
      ∧ (Find scenarioDesired failingTagsContext).q.ARN = none := by
  refine ⟨rfl, rfl, rfl, rfl⟩

/-- C9, amended: whenever `Find` returns an actual state, the `ARN` of the
desired task has been set to the ARN of that state, which is the `QueueArn`
the provider reports for the one matched queue; whenever `Find` returns no
actual state (nothing found, or an error at any step), the desired task is
left as it was. -/
theorem Find_ARN (q : SQS) (c : CloudupContext) :
    match (Find q c).result with
    | .ok (some actual) =>
      (Find q c).q.ARN = actual.ARN
        ∧ ∃ url attributes,
            c.SQS.ListQueues (Find.listInput q) = .ok (some { QueueUrls := [url] })
            ∧ c.SQS.GetQueueAttributes (Find.attributesInput url) = .ok attributes
            ∧ actual.ARN = some (mapIndex attributes.Attributes "QueueArn")
    | _ => (Find q c).q = q := by
  by_cases hn : q.Name = none
  · simp only [Find, hn, if_true]
  cases hlist : c.SQS.ListQueues { MaxResults := some 2, QueueNamePrefix := q.Name } with
  | error err => simp only [Find, hn, if_false, hlist]
  | ok response =>
    cases response with
    | none => simp only [Find, hn, if_false, hlist]
    | some response =>
      match hurls : response.QueueUrls with
      | [] => simp only [Find, hn, if_false, hlist, hurls]
      | _ :: _ :: _ => simp only [Find, hn, if_false, hlist, hurls]
      | [url] =>
        have hresponse : response = { QueueUrls := [url] } := by
          cases response
          simpa using hurls
        cases hattr : c.SQS.GetQueueAttributes
            { AttributeNames := ["MessageRetentionPeriod", "Policy", "QueueArn"],
              QueueUrl := some url } with
        | error err => simp only [Find, hn, if_false, hlist, hurls, hattr]
        | ok attributes =>
          cases hatoi : c.Atoi (mapIndex attributes.Attributes "MessageRetentionPeriod") with
          | error err => simp only [Find, hn, if_false, hlist, hurls, hattr, hatoi]
          | ok period =>
            cases htags : c.SQS.ListQueueTags { QueueUrl := some url } with
            | error err => simp only [Find, hn, if_false, hlist, hurls, hattr, hatoi, htags]
            | ok tags =>
              cases hpolicy : (match q.Policy with
                | some policy => Find.policy c q policy (mapIndex attributes.Attributes "Policy")
                | none => .ok (mapIndex attributes.Attributes "Policy", q.Policy)) with
              | error err =>
                simp only [Find, hn, if_false, hlist, hurls, hattr, hatoi, htags, hpolicy]
              | ok pair =>
                obtain ⟨actualPolicy, qPolicy⟩ := pair
                simp only [Find, hn, if_false, hlist, hurls, hattr, hatoi, htags, hpolicy]
                refine ⟨trivial, url, attributes, ?_, ?_, rfl⟩
                · rw [Find.listInput, hlist, hresponse]
                · rw [Find.attributesInput, hattr]

/-! ## Policy normaliser -/

theorem xform_off_path (marshal : JSON → String) (path : String) (value : List JSON)
    (h : path ≠ servicePath) : normalizePolicy.xform marshal path value = .ok value := by
  simp [normalizePolicy.xform, h]

theorem xform_on_path (marshal : JSON → String) (path : String) (value : List JSON)
    (h : path = servicePath) :
    normalizePolicy.xform marshal path value
      = .ok (value.insertionSort (fun a b => stringLE (marshal a) (marshal b))) := by
  simp [normalizePolicy.xform, h, SortSlice]

theorem slicePath_ne_of_long (path : String) (h : servicePath.length ≤ path.length) :
    path ++ "[]" ≠ servicePath := by
  intro heq
  have hlen : (path ++ "[]").length = servicePath.length := by rw [heq]
  rw [String.length_append] at hlen
  have h2 : "[]".length = 2 := by decide
  omega

mutual
theorem visit_below : ∀ (marshal : JSON → String) (path : String) (v : JSON),
    servicePath.length ≤ path.length →
    Transformer.visit (normalizePolicy.xform marshal) path v = .ok v
  | _, _, .null, _ => rfl
  | _, _, .bool _, _ => rfl
  | _, _, .number _, _ => rfl
  | _, _, .string _, _ => rfl
  | marshal, path, .slice xs, h => by
    have hlong : servicePath.length ≤ (path ++ "[]").length := by
      rw [String.length_append]
      omega
    simp [Transformer.visit, visitSlice_below marshal (path ++ "[]") xs hlong,
      xform_off_path marshal _ xs (slicePath_ne_of_long path h)]
  | marshal, path, .object kvs, h => by
    simp [Transformer.visit, visitMap_below marshal path kvs h]
theorem visitSlice_below : ∀ (marshal : JSON → String) (path : String) (xs : List JSON),
    servicePath.length ≤ path.length →
    Transformer.visitSlice (normalizePolicy.xform marshal) path xs = .ok xs
  | _, _, [], _ => rfl
  | marshal, path, x :: xs, h => by
    simp [Transformer.visitSlice, visit_below marshal path x h,
      visitSlice_below marshal path xs h]
theorem visitMap_below : ∀ (marshal : JSON → String) (path : String)
    (kvs : List (String × JSON)), servicePath.length ≤ path.length →
    Transformer.visitMap (normalizePolicy.xform marshal) path kvs = .ok kvs
  | _, _, [], _ => rfl
  | marshal, path, (k, v) :: kvs, h => by
    have hlong : servicePath.length ≤ (path ++ "." ++ k).length := by
      rw [String.length_append, String.length_append]
      omega
    simp [Transformer.visitMap, visit_below marshal (path ++ "." ++ k) v hlong,
      visitMap_below marshal path kvs h]
end

theorem DeepEqualSlice_of_pointwise (marshal : JSON → String) :
    ∀ (l1 l2 : List JSON), List.Forall₂ (fun a b => marshal a = marshal b) l1 l2 →
      (∀ a ∈ l1, ∀ b ∈ l2, marshal a = marshal b → DeepEqual a b = true) →
      DeepEqualSlice l1 l2 = true
  | _, _, .nil, _ => by simp [DeepEqualSlice]
  | _, _, @List.Forall₂.cons _ _ _ a b l1 l2 hab hrest, h => by
    have hhead : DeepEqual a b = true :=
      h a (List.mem_cons_self a l1) b (List.mem_cons_self b l2) hab
    have htail : DeepEqualSlice l1 l2 = true :=
      DeepEqualSlice_of_pointwise marshal l1 l2 hrest
        (fun x hx y hy => h x (List.mem_cons_of_mem a hx) y (List.mem_cons_of_mem b hy))
    simp [DeepEqualSlice, hhead, htail]

theorem sorted_services_deepEqual (marshal : JSON → String) (xs ys : List JSON)
    (hperm : xs.Perm ys)
    (hvalues : ∀ a ∈ xs, ∀ b ∈ xs, marshal a = marshal b → DeepEqual a b = true) :
    DeepEqualSlice (xs.insertionSort (fun a b => stringLE (marshal a) (marshal b)))
      (ys.insertionSort (fun a b => stringLE (marshal a) (marshal b))) = true := by
  let r : JSON → JSON → Prop := fun a b => stringLE (marshal a) (marshal b)
  have htotal : IsTotal JSON r := ⟨fun a b => stringLE.isTotal.total (marshal a) (marshal b)⟩
  have htrans : IsTrans JSON r :=
    ⟨fun a b c hab hbc => stringLE.isTrans.trans (marshal a) (marshal b) (marshal c) hab hbc⟩
  have hsx : (xs.insertionSort r).Sorted r := List.sorted_insertionSort r xs
  have hsy : (ys.insertionSort r).Sorted r := List.sorted_insertionSort r ys
  have hpx : (xs.insertionSort r).Perm xs := List.perm_insertionSort r xs
  have hpy : (ys.insertionSort r).Perm ys := List.perm_insertionSort r ys
  have hmx : ((xs.insertionSort r).map marshal).Sorted stringLE := by
    simpa [List.Sorted, List.pairwise_map] using hsx
  have hmy : ((ys.insertionSort r).map marshal).Sorted stringLE := by
    simpa [List.Sorted, List.pairwise_map] using hsy
  have hpm : ((xs.insertionSort r).map marshal).Perm ((ys.insertionSort r).map marshal) :=
    ((hpx.trans hperm).trans hpy.symm).map marshal
  have heq : (xs.insertionSort r).map marshal = (ys.insertionSort r).map marshal :=
    List.eq_of_perm_of_sorted hpm hmx hmy
  have hf : List.Forall₂ (fun a b => marshal a = marshal b)
      (xs.insertionSort r) (ys.insertionSort r) := by
    have h0 : List.Forall₂ Eq ((xs.insertionSort r).map marshal)
        ((ys.insertionSort r).map marshal) := by
      rw [heq]
      exact List.forall₂_refl _
    rw [List.forall₂_map_left_iff, List.forall₂_map_right_iff] at h0
    exact h0
  refine DeepEqualSlice_of_pointwise marshal _ _ hf ?_
  intro a ha b hb hab
  exact hvalues a (hpx.subset ha) b (hperm.symm.subset (hpy.subset hb)) hab

theorem mem_keys_of_lookup (b : List (String × JSON)) (k : String) (w : JSON)
    (h : b.lookup k = some w) : k ∈ b.map Prod.fst := by
  induction b with
  | nil => simp [List.lookup] at h
  | cons y rest ih =>
    obtain ⟨k2, w2⟩ := y
    by_cases hk : k = k2
    · simp [hk]
    · have hb : (k == k2) = false := by simpa using hk
      simp only [List.lookup, hb] at h
      simp only [List.map_cons, List.mem_cons]
      exact Or.inr (ih h)

theorem lookup_of_pointwise :
    ∀ (a b : List (String × JSON)),
      List.Forall₂ (fun x y => x.1 = y.1 ∧ DeepEqual x.2 y.2 = true) a b →
      (b.map Prod.fst).Nodup →
      ∀ kv ∈ a, ∃ w, b.lookup kv.1 = some w ∧ DeepEqual kv.2 w = true
  | _, _, .nil, _ => by simp
  | _, _, @List.Forall₂.cons _ _ _ x y a b hxy hrest, hnd => by
    obtain ⟨kx, vx⟩ := x
    obtain ⟨ky, vy⟩ := y
    simp only [List.map_cons, List.nodup_cons] at hnd
    simp only at hxy
    obtain ⟨hk, hv⟩ := hxy
    subst hk
    intro kv hkv
    rcases List.mem_cons.1 hkv with heq | hmem
    · subst heq
      exact ⟨vy, by simp [List.lookup], hv⟩
    · obtain ⟨w, hw, hd⟩ := lookup_of_pointwise a b hrest hnd.2 kv hmem
      have hne : kv.1 ≠ kx := by
        intro h
        exact hnd.1 (h ▸ mem_keys_of_lookup b kv.1 w hw)
      have hb : (kv.1 == kx) = false := by simpa using hne
      exact ⟨w, by simp only [List.lookup, hb, hw], hd⟩

theorem DeepEqualMap_of_lookup (b : List (String × JSON)) :
    ∀ (a : List (String × JSON)),
      (∀ kv ∈ a, ∃ w, b.lookup kv.1 = some w ∧ DeepEqual kv.2 w = true) →
      DeepEqualMap a b = true
  | [], _ => by simp [DeepEqualMap]
  | (k, v) :: rest, h => by
    obtain ⟨w, hw, hd⟩ := h (k, v) (List.mem_cons_self _ _)
    have hrest : DeepEqualMap rest b = true :=
      DeepEqualMap_of_lookup b rest (fun kv hkv => h kv (List.mem_cons_of_mem _ hkv))
    simp only at hw hd
    simp [DeepEqualMap, hw, hd, hrest]

theorem DeepEqual_object (a b : List (String × JSON))
    (h : List.Forall₂ (fun x y => x.1 = y.1 ∧ DeepEqual x.2 y.2 = true) a b)
    (hnd : (b.map Prod.fst).Nodup) :
    DeepEqual (.object a) (.object b) = true := by
  have hlen : a.length = b.length := h.length_eq
  have hmap : DeepEqualMap a b = true :=
    DeepEqualMap_of_lookup b a (lookup_of_pointwise a b h hnd)
  simp [DeepEqual, hlen, hmap]

mutual
theorem visit_reordered : ∀ {marshal : JSON → String} {path : String} {v w : JSON},
    Reordered marshal path v w →
    ∃ n1 n2, Transformer.visit (normalizePolicy.xform marshal) path v = .ok n1
      ∧ Transformer.visit (normalizePolicy.xform marshal) path w = .ok n2
      ∧ DeepEqual n1 n2 = true
  | _, _, _, _, .null _ => ⟨_, _, rfl, rfl, by simp [DeepEqual]⟩
  | _, _, _, _, .bool _ _ => ⟨_, _, rfl, rfl, by simp [DeepEqual]⟩
  | _, _, _, _, .number _ _ => ⟨_, _, rfl, rfl, by simp [DeepEqual]⟩
  | _, _, _, _, .string _ _ => ⟨_, _, rfl, rfl, by simp [DeepEqual]⟩
  | marshal, _, _, _, .services path xs ys hpath hperm hvalues => by
    have hlong : servicePath.length ≤ (path ++ "[]").length := by rw [hpath]
    refine ⟨.slice (xs.insertionSort (fun a b => stringLE (marshal a) (marshal b))),
      .slice (ys.insertionSort (fun a b => stringLE (marshal a) (marshal b))), ?_, ?_, ?_⟩
    · simp [Transformer.visit, visitSlice_below marshal _ xs hlong,
        xform_on_path marshal _ xs hpath]
    · simp [Transformer.visit, visitSlice_below marshal _ ys hlong,
        xform_on_path marshal _ ys hpath]
    · simp only [DeepEqual]
      exact sorted_services_deepEqual marshal xs ys hperm hvalues
  | marshal, _, _, _, .slice path xs ys hpath h => by
    obtain ⟨n1, n2, h1, h2, hd⟩ := visitSlice_reordered h
    exact ⟨.slice n1, .slice n2,
      by simp [Transformer.visit, h1, xform_off_path marshal _ n1 hpath],
      by simp [Transformer.visit, h2, xform_off_path marshal _ n2 hpath],
      by simpa [DeepEqual] using hd⟩
  | _, _, _, _, .object path kvs kvs2 hnd h => by
    obtain ⟨n1, n2, h1, h2, hf, hkeys⟩ := visitMap_reordered h
    exact ⟨.object n1, .object n2, by simp [Transformer.visit, h1],
      by simp [Transformer.visit, h2], DeepEqual_object n1 n2 hf (hkeys ▸ hnd)⟩
theorem visitSlice_reordered : ∀ {marshal : JSON → String} {path : String} {xs ys : List JSON},
    ReorderedSlice marshal path xs ys →
    ∃ n1 n2, Transformer.visitSlice (normalizePolicy.xform marshal) path xs = .ok n1
      ∧ Transformer.visitSlice (normalizePolicy.xform marshal) path ys = .ok n2
      ∧ DeepEqualSlice n1 n2 = true
  | _, _, _, _, .nil _ => ⟨_, _, rfl, rfl, by simp [DeepEqualSlice]⟩
  | _, _, _, _, .cons path x y xs ys hx hxs => by
    obtain ⟨n1, n2, h1, h2, hd⟩ := visit_reordered hx
    obtain ⟨ns1, ns2, hs1, hs2, hds⟩ := visitSlice_reordered hxs
    exact ⟨n1 :: ns1, n2 :: ns2, by simp [Transformer.visitSlice, h1, hs1],
      by simp [Transformer.visitSlice, h2, hs2], by simp [DeepEqualSlice, hd, hds]⟩
theorem visitMap_reordered : ∀ {marshal : JSON → String} {path : String}
    {kvs kvs2 : List (String × JSON)}, ReorderedMap marshal path kvs kvs2 →
    ∃ n1 n2, Transformer.visitMap (normalizePolicy.xform marshal) path kvs = .ok n1
      ∧ Transformer.visitMap (normalizePolicy.xform marshal) path kvs2 = .ok n2
      ∧ List.Forall₂ (fun x y => x.1 = y.1 ∧ DeepEqual x.2 y.2 = true) n1 n2
      ∧ n2.map Prod.fst = kvs.map Prod.fst
  | _, _, _, _, .nil _ => ⟨_, _, rfl, rfl, .nil, rfl⟩
  | _, _, _, _, .cons path k v w kvs kvs2 hv hkvs => by
    obtain ⟨n1, n2, h1, h2, hd⟩ := visit_reordered hv
    obtain ⟨ns1, ns2, hs1, hs2, hf, hkeys⟩ := visitMap_reordered hkvs
    exact ⟨(k, n1) :: ns1, (k, n2) :: ns2, by simp [Transformer.visitMap, h1, hs1],
      by simp [Transformer.visitMap, h2, hs2], .cons ⟨rfl, hd⟩ hf, by simp [hkeys]⟩
end

/-- C2: for all policy documents `P1` and `P2` that differ only in the order
of the service principals (values of any kind) in the slices at
`.Statement[].Principal.Service[]`, `normalizePolicy` succeeds on both and the
two normalised documents are deeply equal, as `Find` compares them. -/
theorem normalizePolicy_reordered (marshal : JSON → String) (P1 P2 : JSONObject)
    (h : Reordered marshal "" (.object P1) (.object P2)) :
    ∃ N1 N2, normalizePolicy marshal P1 = .ok N1 ∧ normalizePolicy marshal P2 = .ok N2
      ∧ DeepEqual (.object N1) (.object N2) = true := by
  cases h with
  | object _ _ _ hnd hmap =>
    obtain ⟨n1, n2, h1, h2, hf, hkeys⟩ := visitMap_reordered hmap
    exact ⟨n1, n2, by simp [normalizePolicy, Transformer.Transform, h1],
      by simp [normalizePolicy, Transformer.Transform, h2],
      DeepEqual_object n1 n2 hf (hkeys ▸ hnd)⟩

/-- Two documents with one statement differ only in the order of the service
principals when the principals of one are those of the other in another order
and principals with the same encoding are deeply equal. -/
theorem policyDocument_reordered (marshal : JSON → String) (xs ys : List JSON)
    (hperm : xs.Perm ys)
    (hvalues : ∀ a ∈ xs, ∀ b ∈ xs, marshal a = marshal b → DeepEqual a b = true) :
    Reordered marshal "" (.object (policyDocument (.slice xs)))
      (.object (policyDocument (.slice ys))) :=
  .object _ _ _ (by simp [policyDocument])
    (.cons _ "Statement" _ _ [] []
      (.slice _ _ _ (by decide)
        (.cons _ _ _ [] []
          (.object _ _ _ (by simp [policyDocument])
            (.cons _ "Principal" _ _ [] []
              (.object _ _ _ (by simp [policyDocument])
                (.cons _ "Service" _ _ [] []
                  (.services _ xs ys (by decide) hperm hvalues)
                  (.nil _)))
              (.nil _)))
          (.nil _)))
      (.nil _))

/-- C2, at scenario B (the services `b`, `a` against `a`, `b`) and at a slice
that also holds a principal that is not a string. -/
theorem normalizePolicy_reordered_witness :
    (∃ N1 N2,
      normalizePolicy scenarioMarshal (policyDocument (.slice [.string "b", .string "a"]))
          = .ok N1
        ∧ normalizePolicy scenarioMarshal (policyDocument (.slice [.string "a", .string "b"]))
          = .ok N2
        ∧ DeepEqual (.object N1) (.object N2) = true)
      ∧ ∃ N1 N2,
        normalizePolicy scenarioMarshal
            (policyDocument (.slice [.string "b", .null, .string "a"])) = .ok N1
          ∧ normalizePolicy scenarioMarshal
            (policyDocument (.slice [.null, .string "a", .string "b"])) = .ok N2
          ∧ DeepEqual (.object N1) (.object N2) = true :=
  ⟨normalizePolicy_reordered scenarioMarshal _ _
      (policyDocument_reordered scenarioMarshal [.string "b", .string "a"]
        [.string "a", .string "b"] (List.Perm.swap _ _ [])
        (by
          intro a ha b hb
          simp only [List.mem_cons, List.mem_singleton, List.not_mem_nil, or_false] at ha hb
          rcases ha with rfl | rfl <;> rcases hb with rfl | rfl <;> decide)),
    normalizePolicy_reordered scenarioMarshal _ _
      (policyDocument_reordered scenarioMarshal [.string "b", .null, .string "a"]
        [.null, .string "a", .string "b"]
        (@List.perm_append_comm _ [JSON.string "b"] [JSON.null, JSON.string "a"])
        (by
          intro a ha b hb
          simp only [List.mem_cons, List.mem_singleton, List.not_mem_nil, or_false] at ha hb
          rcases ha with rfl | rfl | rfl <;> rcases hb with rfl | rfl | rfl <;> decide))⟩

mutual
theorem visit_unreached : ∀ (marshal : JSON → String) (path : String) (v : JSON),
    reachesServices path v = false →
    Transformer.visit (normalizePolicy.xform marshal) path v = .ok v
  | _, _, .null, _ => rfl
  | _, _, .bool _, _ => rfl
  | _, _, .number _, _ => rfl
  | _, _, .string _, _ => rfl
  | marshal, path, .slice xs, h => by
    simp only [reachesServices, Bool.or_eq_false_iff, decide_eq_false_iff_not] at h
    simp [Transformer.visit, visitSlice_unreached marshal (path ++ "[]") xs h.2,
      xform_off_path marshal _ xs h.1]
  | marshal, path, .object kvs, h => by
    simp only [reachesServices] at h
    simp [Transformer.visit, visitMap_unreached marshal path kvs h]
theorem visitSlice_unreached : ∀ (marshal : JSON → String) (path : String) (xs : List JSON),
    reachesServicesSlice path xs = false →
    Transformer.visitSlice (normalizePolicy.xform marshal) path xs = .ok xs
  | _, _, [], _ => rfl
  | marshal, path, x :: xs, h => by
    simp only [reachesServicesSlice, Bool.or_eq_false_iff] at h
    simp [Transformer.visitSlice, visit_unreached marshal path x h.1,
      visitSlice_unreached marshal path xs h.2]
theorem visitMap_unreached : ∀ (marshal : JSON → String) (path : String)
    (kvs : List (String × JSON)), reachesServicesMap path kvs = false →
    Transformer.visitMap (normalizePolicy.xform marshal) path kvs = .ok kvs
  | _, _, [], _ => rfl
  | marshal, path, (k, v) :: kvs, h => by
    simp only [reachesServicesMap, Bool.or_eq_false_iff] at h
    simp [Transformer.visitMap, visit_unreached marshal (path ++ "." ++ k) v h.1,
      visitMap_unreached marshal path kvs h.2]
end

/-- C10 fails as stated: a document whose `Service` holds a single string
where a slice is expected is returned unchanged, with no error. -/
theorem normalizePolicy_single_service :
    normalizePolicy scenarioMarshal (policyDocument (.string "sqs.amazonaws.com"))
      = .ok (policyDocument (.string "sqs.amazonaws.com")) := by
  rfl

/-- C10, amended: for every parsed policy document in which no slice sits at
the path `.Statement[].Principal.Service[]` (as when `Service` holds a single
string), `normalizePolicy` returns no error and leaves the document
unchanged. -/
theorem normalizePolicy_unreached (marshal : JSON → String) (policy : JSONObject)
    (h : reachesServicesMap "" policy = false) :
    normalizePolicy marshal policy = .ok policy := by
  simp [normalizePolicy, Transformer.Transform, visitMap_unreached marshal "" policy h]

/-- C10, amended, at a document whose `Statement` is a string, at one whose
`Service` is a number, and at one whose `Statement` is a single object instead
of a slice of objects: its principals `b`, `a` are left in that order. -/
theorem normalizePolicy_unreached_witness :
    normalizePolicy scenarioMarshal [("Statement", .string "Allow")]
        = .ok [("Statement", .string "Allow")]
      ∧ normalizePolicy scenarioMarshal (policyDocument (.number 1))
        = .ok (policyDocument (.number 1))
      ∧ normalizePolicy scenarioMarshal
          [("Statement",
            .object [("Principal", .object [("Service", .slice [.string "b", .string "a"])])])]
        = .ok
          [("Statement",
            .object [("Principal", .object [("Service", .slice [.string "b", .string "a"])])])] :=
  ⟨normalizePolicy_unreached _ _ (by decide), normalizePolicy_unreached _ _ (by decide),
    normalizePolicy_unreached _ _ (by decide)⟩

end awstasks
